import Mathlib

/-!
Verification of the Expense-Tracker application (`expense-tracker.py`).

The development shallowly embeds the three layers of the program:

* `DataStorage` (SQLite-backed store) becomes a `Store`: a list of rows
  together with the `AUTOINCREMENT` sequence counter of the `expenses`
  table.  `add_expense`, `delete_expense` and `get_all_expenses` are
  translated statement by statement.
* `create_pie_chart` (pandas `groupby` + matplotlib `pie`) becomes a pure
  function from a record list to a `ChartResult`.
* `ExpenseTrackerApp` (the tkinter controller) becomes a state-transition
  function on `AppState`, with message boxes reified as `UIMsg` values.

Machine `REAL` amounts are modelled as `ℚ`; date stamps stay the strings
produced by `datetime.now().strftime("%d-%m-%Y %H:%M:%S")`.
-/

/-- One row of the `expenses` table:
`id INTEGER PRIMARY KEY AUTOINCREMENT, amount REAL, category TEXT, date TEXT`. -/
@[ext]
structure Row where
  id : Nat
  amount : ℚ
  category : String
  date : String
deriving Repr, DecidableEq

/-- The non-key payload of a row, `(amount, category, date)` — exactly the
columns copied by `INSERT INTO temp_expenses (amount, category, date)
SELECT amount, category, date FROM expenses`. -/
def rowData (r : Row) : ℚ × String × String :=
  (r.amount, r.category, r.date)

/-- The persistent state behind `DataStorage`: the rows of the `expenses`
table in storage (rowid) order, plus the table's `AUTOINCREMENT` sequence
value (the largest id ever handed out for the current table). -/
@[ext]
structure Store where
  rows : List Row
  seq : Nat
deriving Repr, DecidableEq

/-- `DataStorage._initialize_db`: a fresh database has an empty `expenses`
table whose autoincrement sequence starts at 0. -/
def initStore : Store := ⟨[], 0⟩

/-- `DataStorage.add_expense(amount, category, date)`: the bare
`INSERT INTO expenses (amount, category, date) VALUES (?, ?, ?)` —
SQLite assigns id `seq + 1` and appends the row.  Note the Python method
performs no validation whatsoever. -/
def add_expense (amount : ℚ) (category date : String) (s : Store) : Store :=
  ⟨s.rows ++ [⟨s.seq + 1, amount, category, date⟩], s.seq + 1⟩

/-- Sequential re-insertion of payload triples into a fresh
`AUTOINCREMENT` table starting at id `n`: models
`INSERT INTO temp_expenses (amount, category, date) SELECT ... FROM expenses`,
which hands out ids `n, n+1, ...` in storage order. -/
def renumberFrom (n : Nat) : List (ℚ × String × String) → List Row
  | [] => []
  | (a, c, d) :: rest => ⟨n, a, c, d⟩ :: renumberFrom (n + 1) rest

/-- `DataStorage.delete_expense(expense_id)`:
`DELETE FROM expenses WHERE id = ?`, then rebuild: copy the surviving
payloads into a fresh `temp_expenses` table (ids reassigned densely from 1),
drop `expenses`, and rename `temp_expenses` to `expenses`.  The renamed
table's autoincrement sequence equals the number of rows re-inserted. -/
def delete_expense (expense_id : Nat) (s : Store) : Store :=
  let kept := s.rows.filter (fun r => r.id ≠ expense_id)
  ⟨renumberFrom 1 (kept.map rowData), kept.length⟩

/-- Code-point lexicographic comparison of character lists: `l₁ ≤ l₂`.
This is the order SQLite's default BINARY collation induces on UTF-8 TEXT
values (byte order coincides with code-point order in UTF-8), and also the
order Python's `<` puts on strings. -/
def charListLe : List Char → List Char → Bool
  | [], _ => true
  | _ :: _, [] => false
  | a :: as, b :: bs => if a = b then charListLe as bs else decide (a < b)

/-- `≤` on strings under SQLite's BINARY collation. -/
def StrLe (a b : String) : Prop := charListLe a.data b.data = true

instance : DecidableRel StrLe := fun _ _ =>
  inferInstanceAs (Decidable (_ = true))

/-- Descending `date` order between two rows: `ORDER BY date DESC` places
`a` before `b` when `b.date ≤ a.date`. -/
def DateDesc (a b : Row) : Prop := StrLe b.date a.date

instance : DecidableRel DateDesc := fun a b =>
  inferInstanceAs (Decidable (StrLe b.date a.date))

/-- `DataStorage.get_all_expenses`:
`SELECT * FROM expenses ORDER BY date DESC` — the rows sorted by the
`date` TEXT column in descending (byte-wise/lexicographic) order. -/
def get_all_expenses (s : Store) : List Row :=
  s.rows.insertionSort DateDesc

/-- The ids of the stored rows, in storage order. -/
def storeIds (s : Store) : List Nat := s.rows.map (·.id)

/-- Store states reachable by the program: a fresh database followed by any
sequence of `add_expense` / `delete_expense` calls. -/
inductive Reachable : Store → Prop
  | init : Reachable initStore
  | add (a : ℚ) (c d : String) {s : Store} :
      Reachable s → Reachable (add_expense a c d s)
  | del (i : Nat) {s : Store} :
      Reachable s → Reachable (delete_expense i s)

/-- The store invariant maintained by the program: ids are exactly
`1, 2, ..., n` in storage order and the autoincrement sequence equals the
row count. -/
def StoreInv (s : Store) : Prop :=
  storeIds s = List.range' 1 s.rows.length ∧ s.seq = s.rows.length

/-! ## Aggregation & chart (`create_pie_chart`) -/

/-- Total of the `amount` column over a record list: what
`sum(df['amount'])` — and the pie normalisation denominator — computes. -/
def totalSum (l : List Row) : ℚ := (l.map (·.amount)).sum

/-- The per-category amount total:
`df.groupby('category')['amount'].sum()` evaluated at one category. -/
def categoryTotal (l : List Row) (c : String) : ℚ :=
  ((l.filter (fun r => r.category = c)).map (·.amount)).sum

/-- The group keys produced by `df.groupby('category')`: the distinct
category values, in ascending order (pandas sorts group keys). -/
def categoryKeys (l : List Row) : List String :=
  ((l.map (·.category)).dedup).insertionSort StrLe

/-- `df.groupby('category')['amount'].sum()` as an ordered
key-to-total association list. -/
def category_totals (l : List Row) : List (String × ℚ) :=
  (categoryKeys l).map (fun c => (c, categoryTotal l c))

/-- `'%1.1f'`: a number rendered to one decimal place, modelled as
rounding to the nearest tenth. -/
def fmt1f (x : ℚ) : ℚ := (round (x * 10) : ℤ) / 10

/-- One wedge of the rendered pie: its label, its value (the group total),
its angular share of the whole, and the percentage printed by
`autopct='%1.1f%%'`. -/
structure Slice where
  label : String
  value : ℚ
  share : ℚ
  pct : ℚ
deriving Repr, DecidableEq

/-- Observable outcome of `create_pie_chart`: either the
`messagebox.showinfo` signal (no rendering), or a rendered pie chart with
its title and wedges. -/
inductive ChartResult where
  | info (title msg : String)
  | chart (title : String) (slices : List Slice)
deriving Repr, DecidableEq

/-- `create_pie_chart(expenses)`: empty input short-circuits to
`showinfo("Info", "No expenses to show.")`; otherwise group by category,
sum amounts, and draw `ax.pie(category_totals, labels=...,
autopct='%1.1f%%')` — each wedge's share is its value divided by the sum
of the plotted values. -/
def create_pie_chart (expenses : List Row) : ChartResult :=
  match expenses with
  | [] => .info "Info" "No expenses to show."
  | _ :: _ =>
    let ct := category_totals expenses
    let total := (ct.map (·.2)).sum
    .chart "Expense Breakdown by Category"
      (ct.map (fun p =>
        { label := p.1, value := p.2, share := p.2 / total,
          pct := fmt1f (100 * (p.2 / total)) }))

/-! ## Application controller (`ExpenseTrackerApp`) -/

/-- A message box raised by the controller
(`messagebox.showerror` / `showwarning` / `showinfo`). -/
inductive UIMsg where
  | showerror (title msg : String)
  | showwarning (title msg : String)
  | showinfo (title msg : String)
deriving Repr, DecidableEq

/-- The controller's transient state: the store handle, the selected row id
(`selected_expense_id`, `None` initially), the two input widgets' texts,
the rows shown in the treeview table, and the dark-mode flag. -/
structure AppState where
  storage : Store
  selected_expense_id : Option Nat
  amount_entry : String
  category_combobox : String
  expense_table : List Row
  is_dark_mode : Bool
deriving Repr, DecidableEq

/-- `ExpenseTrackerApp.load_expenses`: re-read the store and repopulate the
table rows from `get_all_expenses`. -/
def load_expenses (s : AppState) : AppState :=
  { s with expense_table := get_all_expenses s.storage }

/-- `ExpenseTrackerApp.clear_inputs`: empty both input widgets and reset
`selected_expense_id` to `None`. -/
def clear_inputs (s : AppState) : AppState :=
  { s with amount_entry := "", category_combobox := "", selected_expense_id := none }

/-- `ExpenseTrackerApp.add_expense` (the submit handler).  `parseFloat`
stands for Python's `float(...)` (`none` = `ValueError`); `now` is the
string `datetime.datetime.now().strftime("%d-%m-%Y %H:%M:%S")`.  Empty
fields and non-positive / unparsable amounts are rejected with an error box
and no state change; otherwise the store add, list refresh, input clearing
and success box happen in that order. -/
def app_add_expense (parseFloat : String → Option ℚ) (now : String)
    (s : AppState) : AppState × UIMsg :=
  let amount := s.amount_entry
  let category := s.category_combobox
  if amount = "" ∨ category = "" then
    (s, .showerror "Input Error" "All fields are required.")
  else
    match parseFloat amount with
    | none => (s, .showerror "Input Error" "Amount must be a positive number.")
    | some a =>
      if a ≤ 0 then
        (s, .showerror "Input Error" "Amount must be a positive number.")
      else
        let s := { s with storage := add_expense a category now s.storage }
        (clear_inputs (load_expenses s), .showinfo "Success" "Expense added successfully!")

/-- Python truthiness of `self.selected_expense_id` in
`if not self.selected_expense_id:` — falsy when `None` or `0`. -/
def selectionFalsy : Option Nat → Bool
  | none => true
  | some n => n == 0

/-- `ExpenseTrackerApp.delete_expense` (the delete-selected handler): with
no (truthy) selection, a warning box and no state change; otherwise delete
the selected id from the store, refresh the list, clear the inputs (which
resets the selection), and show the success box. -/
def app_delete_expense (s : AppState) : AppState × UIMsg :=
  if selectionFalsy s.selected_expense_id then
    (s, .showwarning "Selection Error" "Please select an expense to delete.")
  else
    match s.selected_expense_id with
    | none => (s, .showwarning "Selection Error" "Please select an expense to delete.")
    | some i =>
      let s := { s with storage := delete_expense i s.storage }
      (clear_inputs (load_expenses s), .showinfo "Success" "Expense deleted successfully!")

/-- `ExpenseTrackerApp.on_row_select`: record the clicked row's id as the
selection and mirror its amount and category into the input widgets. -/
def on_row_select (rowId : Nat) (amountText categoryText : String)
    (s : AppState) : AppState :=
  { s with selected_expense_id := some rowId,
           amount_entry := amountText,
           category_combobox := categoryText }

/-! ## Chronological order of the timestamp format

`add_expense` (controller) stamps `date` with
`strftime("%d-%m-%Y %H:%M:%S")`, i.e. `dd-mm-YYYY hh:mm:ss` with
zero-padded fixed-width fields.  Chronological comparison of two such
stamps is lexicographic comparison after rearranging to
`YYYY mm dd hh:mm:ss`. -/

/-- The chronological sort key of a `dd-mm-YYYY hh:mm:ss` stamp: its
characters rearranged to `YYYY`, `mm`, `dd`, then the time-of-day suffix,
so that later moments compare strictly greater character-lexicographically. -/
def chronKey (s : String) : List Char :=
  ((s.data.drop 6).take 4) ++ ((s.data.drop 3).take 2) ++ (s.data.take 2)
    ++ s.data.drop 10

/-! ## Concrete fixtures used by witnesses and counterexamples -/

/-- A run of the program: an expense dated 1 February 2025 is added first,
then one dated 2 January 2025. -/
def c2Store : Store :=
  add_expense 7 "Food" "02-01-2025 10:00:00"
    (add_expense 5 "Food" "01-02-2025 10:00:00" initStore)

/-- The record list of the spec's aggregation example:
`[(10, "Food"), (20, "Food"), (30, "Transportation")]`. -/
def exList : List Row :=
  [⟨1, 10, "Food", "03-01-2025 08:00:00"⟩,
   ⟨2, 20, "Food", "03-01-2025 09:00:00"⟩,
   ⟨3, 30, "Transportation", "03-01-2025 10:00:00"⟩]

/-- `exList` with its first two records interchanged — a permutation of the
spec's aggregation example. -/
def exListSwapped : List Row :=
  [⟨2, 20, "Food", "03-01-2025 09:00:00"⟩,
   ⟨1, 10, "Food", "03-01-2025 08:00:00"⟩,
   ⟨3, 30, "Transportation", "03-01-2025 10:00:00"⟩]

/-- A sample `float(...)` behaviour for witnesses: parses the one literal
`"5"` (to `5`) and rejects everything else. -/
def sampleParse : String → Option ℚ :=
  fun t => if t = "5" then some 5 else none

/-- A controller state used by witnesses: one stored record, row 1 selected,
its fields mirrored into the inputs. -/
def sampleApp : AppState :=
  { storage := ⟨[⟨1, 5, "Food", "03-01-2025 08:00:00"⟩], 1⟩,
    selected_expense_id := some 1,
    amount_entry := "5",
    category_combobox := "Food",
    expense_table := [⟨1, 5, "Food", "03-01-2025 08:00:00"⟩],
    is_dark_mode := false }

/-!
# Theorems

First the supporting lemmas about the embedded operations, then one theorem
per specification claim.
-/

theorem renumberFrom_length (n : Nat) (l : List (ℚ × String × String)) :
    (renumberFrom n l).length = l.length := by
  induction l generalizing n with
  | nil => rfl
  | cons hd tl ih =>
    obtain ⟨a, c, d⟩ := hd
    simp [renumberFrom, ih]

theorem renumberFrom_ids (n : Nat) (l : List (ℚ × String × String)) :
    (renumberFrom n l).map (·.id) = List.range' n l.length := by
  induction l generalizing n with
  | nil => rfl
  | cons hd tl ih =>
    obtain ⟨a, c, d⟩ := hd
    simp [renumberFrom, List.range'_succ, ih]

theorem renumberFrom_data (n : Nat) (l : List (ℚ × String × String)) :
    (renumberFrom n l).map rowData = l := by
  induction l generalizing n with
  | nil => rfl
  | cons hd tl ih =>
    obtain ⟨a, c, d⟩ := hd
    simp [renumberFrom, rowData, ih]

/-- Re-inserting the payloads of rows whose ids are already `n, n+1, ...`
reproduces those rows exactly. -/
theorem renumberFrom_roundtrip (n : Nat) (rows : List Row)
    (h : rows.map (·.id) = List.range' n rows.length) :
    renumberFrom n (rows.map rowData) = rows := by
  induction rows generalizing n with
  | nil => rfl
  | cons hd tl ih =>
    simp only [List.map_cons, List.length_cons, List.range'_succ, List.cons.injEq] at h
    obtain ⟨hid, htl⟩ := h
    simp [renumberFrom, rowData, ih (n + 1) htl, Row.ext_iff, hid]

/-- Every reachable store state has densely numbered ids `1..n` and a
sequence counter equal to the row count. -/
theorem reachable_storeInv {s : Store} (h : Reachable s) : StoreInv s := by
  induction h with
  | init => exact ⟨rfl, rfl⟩
  | add a c d _ ih =>
    obtain ⟨hids, hseq⟩ := ih
    constructor
    · simp only [storeIds] at hids
      simp only [storeIds, add_expense, List.map_append, List.length_append,
        List.map_cons, List.map_nil, List.length_cons, List.length_nil, Nat.zero_add]
      rw [hids, hseq, List.range'_1_concat, Nat.add_comm 1 _]
    · simp [add_expense, hseq]
  | del i _ ih =>
    obtain ⟨hids, hseq⟩ := ih
    constructor
    · simp [storeIds, delete_expense, renumberFrom_ids, renumberFrom_length]
    · simp [delete_expense, renumberFrom_length]

/-- Reachable stores have pairwise distinct row ids. -/
theorem reachable_nodup_ids {s : Store} (h : Reachable s) :
    (s.rows.map (·.id)).Nodup := by
  have hids := (reachable_storeInv h).1
  simp only [storeIds] at hids
  rw [hids]
  exact List.nodup_range' 1 s.rows.length

/-- With distinct ids, filtering on a present row's id yields exactly that
row. -/
theorem filter_id_eq_singleton {rows : List Row}
    (hnd : (rows.map (·.id)).Nodup) {r : Row} (hr : r ∈ rows) :
    rows.filter (fun x => x.id = r.id) = [r] := by
  induction rows with
  | nil => cases hr
  | cons hd tl ih =>
    simp only [List.map_cons, List.nodup_cons, List.mem_map] at hnd
    obtain ⟨hhd, htl⟩ := hnd
    rcases List.mem_cons.mp hr with heq | hmem
    · subst heq
      have : tl.filter (fun x => x.id = r.id) = [] := by
        apply List.filter_eq_nil_iff.mpr
        intro x hx
        simp only [decide_eq_true_eq]
        exact fun hxe => hhd ⟨x, hx, hxe⟩
      simp [List.filter_cons, this]
    · have hne : hd.id ≠ r.id := fun he => hhd ⟨r, hmem, he.symm⟩
      simp [List.filter_cons, hne, ih htl hmem]

/-- C1: deleting an existing id removes exactly that record — its id
appears exactly once, the surviving records keep their payloads and
relative storage order, and they are renumbered densely `1, 2, ...`. -/
theorem delete_existing_removes_and_renumbers (s : Store) (r : Row)
    (hs : Reachable s) (hr : r ∈ s.rows) :
    s.rows.filter (fun x => x.id = r.id) = [r] ∧
    (delete_expense r.id s).rows.map rowData
      = (s.rows.filter (fun x => x.id ≠ r.id)).map rowData ∧
    (delete_expense r.id s).rows.map (·.id)
      = List.range' 1 (s.rows.length - 1) ∧
    (delete_expense r.id s).rows.length = s.rows.length - 1 ∧
    (get_all_expenses (delete_expense r.id s)).Perm (delete_expense r.id s).rows := by
  have hsingle := filter_id_eq_singleton (reachable_nodup_ids hs) hr
  have hlen : (s.rows.filter (fun x => !decide (x.id = r.id))).length
      = s.rows.length - 1 := by
    have hsplit := List.length_eq_length_filter_add (l := s.rows)
      (fun x => decide (x.id = r.id))
    have h1 : (s.rows.filter (fun x => decide (x.id = r.id))).length = 1 := by
      have heq : s.rows.filter (fun x => decide (x.id = r.id)) = [r] := hsingle
      rw [heq]
      rfl
    rw [h1] at hsplit
    omega
  refine ⟨hsingle, ?_, ?_, ?_, List.perm_insertionSort _ _⟩
  · simp [delete_expense, renumberFrom_data]
  · simp only [delete_expense, renumberFrom_ids, renumberFrom_length, ne_eq, decide_not]
    rw [List.length_map, hlen]
  · simp only [delete_expense, renumberFrom_length, ne_eq, decide_not]
    rw [List.length_map, hlen]

/-- C5: deleting an id that matches no record leaves every observable part
of the store — records, ids, order, even the autoincrement counter —
unchanged. -/
theorem delete_missing_noop (s : Store) (i : Nat)
    (hs : Reachable s) (hi : ∀ r ∈ s.rows, r.id ≠ i) :
    delete_expense i s = s := by
  obtain ⟨hids, hseq⟩ := reachable_storeInv hs
  simp only [storeIds] at hids
  have hfilter : s.rows.filter (fun r => r.id ≠ i) = s.rows :=
    List.filter_eq_self.mpr (fun r hr => by simpa using hi r hr)
  ext1
  · show renumberFrom 1 ((s.rows.filter (fun r => r.id ≠ i)).map rowData) = s.rows
    rw [hfilter]
    exact renumberFrom_roundtrip 1 s.rows hids
  · show (s.rows.filter (fun r => r.id ≠ i)).length = s.seq
    rw [hfilter, hseq]


/-- Witness for the delete-existing theorem: in the two-record reachable
store `c2Store`, deleting the record with id 1 leaves one record, with the
other payload, renumbered to id 1. -/
theorem delete_existing_removes_and_renumbers_witness :
    c2Store.rows.filter (fun x => x.id = 1) = [⟨1, 5, "Food", "01-02-2025 10:00:00"⟩] ∧
    (delete_expense 1 c2Store).rows.map rowData
      = (c2Store.rows.filter (fun x => x.id ≠ 1)).map rowData ∧
    (delete_expense 1 c2Store).rows.map (·.id)
      = List.range' 1 (c2Store.rows.length - 1) ∧
    (delete_expense 1 c2Store).rows.length = c2Store.rows.length - 1 ∧
    (get_all_expenses (delete_expense 1 c2Store)).Perm (delete_expense 1 c2Store).rows :=
  delete_existing_removes_and_renumbers c2Store ⟨1, 5, "Food", "01-02-2025 10:00:00"⟩
    (Reachable.add 7 "Food" "02-01-2025 10:00:00"
      (Reachable.add 5 "Food" "01-02-2025 10:00:00" Reachable.init))
    (by decide)

/-- Witness for the delete-missing theorem: deleting absent id 3 from the
two-record reachable store `c2Store` changes nothing. -/
theorem delete_missing_noop_witness : delete_expense 3 c2Store = c2Store :=
  delete_missing_noop c2Store 3
    (Reachable.add 7 "Food" "02-01-2025 10:00:00"
      (Reachable.add 5 "Food" "01-02-2025 10:00:00" Reachable.init))
    (by decide)

/-- C2 (failing run): after adding an expense dated 1 February 2025 and
then one dated 2 January 2025, `get_all_expenses` — which orders by the
`date` string, whose format is `dd-mm-YYYY hh:mm:ss` — lists the
2 January record first, although the 1 February record is chronologically
newer (its chronological key is strictly greater).  The empty store does
return the empty sequence. -/
theorem get_all_expenses_not_chronological :
    (get_all_expenses c2Store).map (·.date)
      = ["02-01-2025 10:00:00", "01-02-2025 10:00:00"] ∧
    chronKey "02-01-2025 10:00:00" < chronKey "01-02-2025 10:00:00" ∧
    get_all_expenses initStore = [] :=
  ⟨by decide, by decide, rfl⟩

/-- C3 (counterexample): the store-level `add_expense` accepts the
non-positive amount `-5` and creates a record for it — there is no
store-level validation failure. -/
theorem store_add_accepts_nonpositive :
    (-5 : ℚ) ≤ 0 ∧
    (add_expense (-5) "Food" "05-01-2025 12:00:00" initStore).rows
      = [⟨1, -5, "Food", "05-01-2025 12:00:00"⟩] :=
  ⟨by decide, by decide⟩

/-- C3 (amended): `DataStorage.add_expense` appends a record
unconditionally, whatever the amount; the rejection of non-positive
amounts happens one layer up, in the controller's submit handler, which
surfaces the validation error and never calls the store. -/
theorem store_add_unvalidated_controller_validates :
    (∀ (s : Store) (a : ℚ) (c d : String),
      (add_expense a c d s).rows = s.rows ++ [⟨s.seq + 1, a, c, d⟩]) ∧
    (∀ (parse : String → Option ℚ) (now : String) (app : AppState) (q : ℚ),
      app.amount_entry ≠ "" → app.category_combobox ≠ "" →
      parse app.amount_entry = some q → q ≤ 0 →
      app_add_expense parse now app
        = (app, .showerror "Input Error" "Amount must be a positive number.")) := by
  constructor
  · intro s a c d
    rfl
  · intro parse now app q ha hc hp hq
    simp [app_add_expense, ha, hc, hp, hq]

/-- Witness for the amended C3 theorem: submitting the text `"-5"` (which
parses to `-5 ≤ 0`) with a non-empty category leaves the whole controller
state unchanged and surfaces the validation error. -/
theorem store_add_unvalidated_controller_validates_witness :
    app_add_expense (fun t => if t = "-5" then some (-5) else none) "05-01-2025 12:00:00"
        { storage := initStore, selected_expense_id := none, amount_entry := "-5",
          category_combobox := "Food", expense_table := [], is_dark_mode := false }
      = ({ storage := initStore, selected_expense_id := none, amount_entry := "-5",
           category_combobox := "Food", expense_table := [], is_dark_mode := false },
         .showerror "Input Error" "Amount must be a positive number.") :=
  store_add_unvalidated_controller_validates.2
    (fun t => if t = "-5" then some (-5) else none) "05-01-2025 12:00:00"
    { storage := initStore, selected_expense_id := none, amount_entry := "-5",
      category_combobox := "Food", expense_table := [], is_dark_mode := false }
    (-5) (by decide) (by decide) (by decide) (by decide)

/-- C7: rendering the chart for zero records produces exactly the
`showinfo("Info", "No expenses to show.")` signal — the `info`
constructor, not a rendered `chart`. -/
theorem chart_empty_nothing_to_show :
    create_pie_chart [] = .info "Info" "No expenses to show." := rfl

/-- C4: the submit handler rejects (with a user-visible error and no state
change) whenever a field is empty or the amount text does not parse to a
positive number; on valid input it adds the parsed amount with the current
timestamp to the store, refreshes the displayed table from the store, and
clears the inputs (and selection). -/
theorem submit_validates_then_adds (parse : String → Option ℚ)
    (now : String) (s : AppState) :
    (s.amount_entry = "" ∨ s.category_combobox = "" →
      app_add_expense parse now s
        = (s, .showerror "Input Error" "All fields are required.")) ∧
    (s.amount_entry ≠ "" → s.category_combobox ≠ "" →
      parse s.amount_entry = none →
      app_add_expense parse now s
        = (s, .showerror "Input Error" "Amount must be a positive number.")) ∧
    (∀ a : ℚ, s.amount_entry ≠ "" → s.category_combobox ≠ "" →
      parse s.amount_entry = some a → a ≤ 0 →
      app_add_expense parse now s
        = (s, .showerror "Input Error" "Amount must be a positive number.")) ∧
    (∀ a : ℚ, s.amount_entry ≠ "" → s.category_combobox ≠ "" →
      parse s.amount_entry = some a → 0 < a →
      app_add_expense parse now s
        = ({ storage := add_expense a s.category_combobox now s.storage,
             selected_expense_id := none,
             amount_entry := "",
             category_combobox := "",
             expense_table :=
               get_all_expenses (add_expense a s.category_combobox now s.storage),
             is_dark_mode := s.is_dark_mode },
           .showinfo "Success" "Expense added successfully!")) := by
  refine ⟨?_, ?_, ?_, ?_⟩
  · intro h
    rcases h with h | h <;> simp [app_add_expense, h]
  · intro ha hc hp
    simp [app_add_expense, ha, hc, hp]
  · intro a ha hc hp hle
    simp [app_add_expense, ha, hc, hp, hle]
  · intro a ha hc hp hpos
    have hnle : ¬ a ≤ 0 := not_le.mpr hpos
    simp only [app_add_expense, ha, hc, hp, hnle, or_self, if_false, ite_false,
      clear_inputs, load_expenses]

/-- Witness for C4: submitting `"5"`/`"Food"` from `sampleApp` (amount
parses to `5 > 0`) stores the expense with the stamped date, refreshes the
table, clears the inputs and reports success. -/
theorem submit_validates_then_adds_witness :
    app_add_expense sampleParse "06-01-2025 09:30:00" sampleApp
      = ({ storage := add_expense 5 sampleApp.category_combobox
             "06-01-2025 09:30:00" sampleApp.storage,
           selected_expense_id := none,
           amount_entry := "",
           category_combobox := "",
           expense_table :=
             get_all_expenses (add_expense 5 sampleApp.category_combobox
               "06-01-2025 09:30:00" sampleApp.storage),
           is_dark_mode := sampleApp.is_dark_mode },
         .showinfo "Success" "Expense added successfully!") :=
  (submit_validates_then_adds sampleParse "06-01-2025 09:30:00" sampleApp).2.2.2
    5 (by decide) (by decide) (by decide) (by decide)

/-- C8: with a row selected, the delete handler removes that id from the
store, refreshes the table, and resets the selection to none; with no
selection, it surfaces the "nothing selected" warning and changes nothing
at all. -/
theorem delete_selected_contract (s : AppState) :
    (s.selected_expense_id = none →
      app_delete_expense s
        = (s, .showwarning "Selection Error" "Please select an expense to delete.")) ∧
    (∀ i : Nat, s.selected_expense_id = some i → i ≠ 0 →
      app_delete_expense s
        = ({ storage := delete_expense i s.storage,
             selected_expense_id := none,
             amount_entry := "",
             category_combobox := "",
             expense_table := get_all_expenses (delete_expense i s.storage),
             is_dark_mode := s.is_dark_mode },
           .showinfo "Success" "Expense deleted successfully!")) := by
  constructor
  · intro h
    simp [app_delete_expense, selectionFalsy, h]
  · intro i h hi
    simp [app_delete_expense, selectionFalsy, h, hi, clear_inputs, load_expenses]

/-- Witness for C8, selected branch: deleting selected row 1 of `sampleApp`
empties the store and table and clears the selection; none-selected branch:
the cleared state only gets the warning. -/
theorem delete_selected_contract_witness :
    (app_delete_expense sampleApp
      = ({ storage := delete_expense 1 sampleApp.storage,
           selected_expense_id := none,
           amount_entry := "",
           category_combobox := "",
           expense_table := get_all_expenses (delete_expense 1 sampleApp.storage),
           is_dark_mode := sampleApp.is_dark_mode },
         .showinfo "Success" "Expense deleted successfully!")) ∧
    (app_delete_expense (clear_inputs sampleApp)
      = (clear_inputs sampleApp,
         .showwarning "Selection Error" "Please select an expense to delete.")) :=
  ⟨(delete_selected_contract sampleApp).2 1 (by decide) (by decide),
   (delete_selected_contract (clear_inputs sampleApp)).1 (by decide)⟩

/-- C9: a successful submit, from any controller state — in particular one
with a row selected — also resets the selection to none and empties both
input fields (via `clear_inputs`), a transition the spec's selection state
machine does not list. -/
theorem submit_resets_selection (parse : String → Option ℚ)
    (now : String) (s : AppState) (a : ℚ)
    (ha : s.amount_entry ≠ "") (hc : s.category_combobox ≠ "")
    (hp : parse s.amount_entry = some a) (hpos : 0 < a) :
    (app_add_expense parse now s).1.selected_expense_id = none ∧
    (app_add_expense parse now s).1.amount_entry = "" ∧
    (app_add_expense parse now s).1.category_combobox = "" ∧
    (app_add_expense parse now s).2
      = .showinfo "Success" "Expense added successfully!" := by
  have hnle : ¬ a ≤ 0 := not_le.mpr hpos
  simp [app_add_expense, ha, hc, hp, hnle, clear_inputs, load_expenses]

/-- Witness for C9: submitting from `sampleApp` — whose selection is
`some 1` — leaves the selection cleared and the fields empty. -/
theorem submit_resets_selection_witness :
    sampleApp.selected_expense_id = some 1 ∧
    ((app_add_expense sampleParse "06-01-2025 09:30:00" sampleApp).1.selected_expense_id
        = none ∧
      (app_add_expense sampleParse "06-01-2025 09:30:00" sampleApp).1.amount_entry = "" ∧
      (app_add_expense sampleParse "06-01-2025 09:30:00" sampleApp).1.category_combobox
        = "" ∧
      (app_add_expense sampleParse "06-01-2025 09:30:00" sampleApp).2
        = .showinfo "Success" "Expense added successfully!") :=
  ⟨rfl,
   submit_resets_selection sampleParse "06-01-2025 09:30:00" sampleApp 5
     (by decide) (by decide) (by decide) (by decide)⟩

/-! ### The BINARY-collation string order is a linear order -/

theorem charListLe_total : ∀ l₁ l₂, charListLe l₁ l₂ = true ∨ charListLe l₂ l₁ = true := by
  intro l₁
  induction l₁ with
  | nil => intro l₂; left; rfl
  | cons a as ih =>
    intro l₂
    cases l₂ with
    | nil => right; rfl
    | cons b bs =>
      rcases lt_trichotomy a b with hab | hab | hab
      · left; simp [charListLe, ne_of_lt hab, hab]
      · subst hab
        rcases ih bs with h | h
        · left; simp [charListLe, h]
        · right; simp [charListLe, h]
      · right; simp [charListLe, ne_of_lt hab, hab]

theorem charListLe_trans : ∀ l₁ l₂ l₃, charListLe l₁ l₂ = true →
    charListLe l₂ l₃ = true → charListLe l₁ l₃ = true := by
  intro l₁
  induction l₁ with
  | nil => intro l₂ l₃ _ _; rfl
  | cons a as ih =>
    intro l₂ l₃ h₁₂ h₂₃
    cases l₂ with
    | nil => simp [charListLe] at h₁₂
    | cons b bs =>
      cases l₃ with
      | nil => simp [charListLe] at h₂₃
      | cons c cs =>
        by_cases hab : a = b
        · subst hab
          simp only [charListLe, if_pos rfl] at h₁₂
          by_cases hac : a = c
          · subst hac
            simp only [charListLe, if_pos rfl] at h₂₃ ⊢
            exact ih bs cs h₁₂ h₂₃
          · simp only [charListLe, if_neg hac] at h₂₃ ⊢
            exact h₂₃
        · simp only [charListLe, if_neg hab, decide_eq_true_eq] at h₁₂
          by_cases hbc : b = c
          · subst hbc
            simp only [charListLe, if_neg hab, decide_eq_true_eq]
            exact h₁₂
          · simp only [charListLe, if_neg hbc, decide_eq_true_eq] at h₂₃
            have hac : a < c := lt_trans h₁₂ h₂₃
            simp only [charListLe, if_neg (ne_of_lt hac), decide_eq_true_eq]
            exact hac

theorem charListLe_antisymm : ∀ l₁ l₂, charListLe l₁ l₂ = true →
    charListLe l₂ l₁ = true → l₁ = l₂ := by
  intro l₁
  induction l₁ with
  | nil =>
    intro l₂ _ h₂
    cases l₂ with
    | nil => rfl
    | cons b bs => simp [charListLe] at h₂
  | cons a as ih =>
    intro l₂ h₁ h₂
    cases l₂ with
    | nil => simp [charListLe] at h₁
    | cons b bs =>
      by_cases hab : a = b
      · subst hab
        simp only [charListLe, if_pos rfl] at h₁ h₂
        rw [ih bs h₁ h₂]
      · simp only [charListLe, if_neg hab, decide_eq_true_eq] at h₁
        have hba : b ≠ a := fun h => hab h.symm
        simp only [charListLe, if_neg hba, decide_eq_true_eq] at h₂
        exact absurd h₂ (lt_asymm h₁)

instance : IsTotal String StrLe := ⟨fun a b => charListLe_total a.data b.data⟩

instance : IsTrans String StrLe :=
  ⟨fun a b c h₁ h₂ => charListLe_trans a.data b.data c.data h₁ h₂⟩

instance : IsAntisymm String StrLe :=
  ⟨fun a b h₁ h₂ => by
    cases a with
    | mk da =>
      cases b with
      | mk db => exact congrArg String.mk (charListLe_antisymm da db h₁ h₂)⟩

/-! ### Aggregation lemmas -/

/-- Amount sums split along any Boolean partition of the records. -/
theorem sum_amount_filter_split (l : List Row) (p : Row → Bool) :
    ((l.filter p).map (·.amount)).sum
      + ((l.filter (fun r => !p r)).map (·.amount)).sum
      = (l.map (·.amount)).sum := by
  induction l with
  | nil => simp
  | cons hd tl ih =>
    by_cases h : p hd <;> simp [List.filter_cons, h, ← ih] <;> ring

/-- Summing the per-category totals over any duplicate-free list of
categories that covers the records reproduces the grand total: the groupby
partitions the amounts. -/
theorem sum_categoryTotals_of_cover (l : List Row) (cats : List String)
    (hnd : cats.Nodup) (hcov : ∀ r ∈ l, r.category ∈ cats) :
    (cats.map (fun c => categoryTotal l c)).sum = totalSum l := by
  induction cats generalizing l with
  | nil =>
    cases l with
    | nil => simp [totalSum]
    | cons r rs => exact absurd (hcov r (by simp)) (by simp)
  | cons c cs ih =>
    have hsplit := sum_amount_filter_split l (fun r => decide (r.category = c))
    have hrest : ∀ c' ∈ cs, categoryTotal l c'
        = categoryTotal (l.filter (fun r => !decide (r.category = c))) c' := by
      intro c' hc'
      have hcc' : c ≠ c' := fun h => (List.nodup_cons.mp hnd).1 (h ▸ hc')
      unfold categoryTotal
      rw [List.filter_filter]
      refine congrArg List.sum (congrArg (List.map _) ?_)
      apply List.filter_congr
      intro r _
      by_cases hrc : r.category = c'
      · have hne : c' ≠ c := fun h => hcc' h.symm
        simp [hrc, hne]
      · simp [hrc]
    have hcovRest : ∀ r ∈ l.filter (fun r => !decide (r.category = c)),
        r.category ∈ cs := by
      intro r hr
      obtain ⟨hrl, hrc⟩ := List.mem_filter.mp hr
      have hne : r.category ≠ c := by simpa using hrc
      rcases List.mem_cons.mp (hcov r hrl) with h | h
      · exact absurd h hne
      · exact h
    calc (List.map (fun c => categoryTotal l c) (c :: cs)).sum
        = categoryTotal l c + (cs.map (fun c' => categoryTotal l c')).sum := by
          simp
      _ = categoryTotal l c
            + (cs.map (fun c' =>
                categoryTotal (l.filter (fun r => !decide (r.category = c))) c')).sum := by
          rw [List.map_congr_left hrest]
      _ = categoryTotal l c
            + totalSum (l.filter (fun r => !decide (r.category = c))) :=
          congrArg _ (ih _ (List.nodup_cons.mp hnd).2 hcovRest)
      _ = totalSum l := by
          unfold categoryTotal totalSum
          exact hsplit

/-- Unfolding of `create_pie_chart` on a non-empty record list. -/
theorem create_pie_chart_ne_nil (l : List Row) (h : l ≠ []) :
    create_pie_chart l = .chart "Expense Breakdown by Category"
      ((category_totals l).map (fun p =>
        { label := p.1, value := p.2,
          share := p.2 / ((category_totals l).map (·.2)).sum,
          pct := fmt1f (100 * (p.2 / ((category_totals l).map (·.2)).sum)) })) := by
  cases l with
  | nil => exact absurd rfl h
  | cons hd tl => rfl

/-- The structural content of C6, for any non-empty record list: the chart
has one slice per distinct category, whose value is that category's amount
total, whose angular share is its value over the grand total, and whose
printed percentage is the share rendered to one decimal place. -/
theorem chart_general (l : List Row) (hne : l ≠ []) :
    ∃ slices,
      create_pie_chart l = .chart "Expense Breakdown by Category" slices ∧
      slices.map (·.label) = categoryKeys l ∧
      (categoryKeys l).Nodup ∧
      (∀ c : String, c ∈ categoryKeys l ↔ ∃ r ∈ l, r.category = c) ∧
      (slices.map (·.value)).sum = totalSum l ∧
      (∀ sl ∈ slices, sl.value = categoryTotal l sl.label ∧
        sl.share = sl.value / totalSum l ∧
        sl.pct = fmt1f (100 * sl.share)) := by
  have hperm : (List.insertionSort StrLe ((l.map (·.category)).dedup)).Perm
      ((l.map (·.category)).dedup) := List.perm_insertionSort _ _
  have hnodup : (categoryKeys l).Nodup :=
    hperm.nodup_iff.mpr (List.nodup_dedup _)
  have hmem : ∀ c : String, c ∈ categoryKeys l ↔ ∃ r ∈ l, r.category = c := by
    intro c
    unfold categoryKeys
    rw [hperm.mem_iff, List.mem_dedup, List.mem_map]
  have hcov : ∀ r ∈ l, r.category ∈ categoryKeys l :=
    fun r hr => (hmem _).mpr ⟨r, hr, rfl⟩
  have hsum : ((categoryKeys l).map (fun c => categoryTotal l c)).sum = totalSum l :=
    sum_categoryTotals_of_cover l _ hnodup hcov
  have htot : ((category_totals l).map (·.2)).sum = totalSum l := by
    unfold category_totals
    rw [List.map_map]
    exact hsum
  refine ⟨_, create_pie_chart_ne_nil l hne, ?_, hnodup, hmem, ?_, ?_⟩
  · rw [List.map_map]
    unfold category_totals
    rw [List.map_map]
    exact List.map_id _
  · rw [List.map_map]
    exact htot
  · intro sl hsl
    obtain ⟨p, hp, rfl⟩ := List.mem_map.mp hsl
    unfold category_totals at hp
    obtain ⟨c, _, rfl⟩ := List.mem_map.mp hp
    refine ⟨rfl, ?_, rfl⟩
    show (c, categoryTotal l c).2 / ((category_totals l).map (·.2)).sum
        = (c, categoryTotal l c).2 / totalSum l
    rw [htot]

/-- C6: for every non-empty record list the breakdown groups records by
category, sums amounts per group, gives each slice the share
`group_sum / total_sum`, and labels it with the category and its
percentage to one decimal place; in particular, on
`[(10, "Food"), (20, "Food"), (30, "Transportation")]` both category
totals are 30, the grand total is 60, and each slice is 50.0% with share
one half. -/
theorem chart_breakdown_by_category :
    (∀ l : List Row, l ≠ [] →
      ∃ slices,
        create_pie_chart l = .chart "Expense Breakdown by Category" slices ∧
        slices.map (·.label) = categoryKeys l ∧
        (categoryKeys l).Nodup ∧
        (∀ c : String, c ∈ categoryKeys l ↔ ∃ r ∈ l, r.category = c) ∧
        (slices.map (·.value)).sum = totalSum l ∧
        (∀ sl ∈ slices, sl.value = categoryTotal l sl.label ∧
          sl.share = sl.value / totalSum l ∧
          sl.pct = fmt1f (100 * sl.share))) ∧
    (categoryTotal exList "Food" = 30 ∧
     categoryTotal exList "Transportation" = 30 ∧
     totalSum exList = 60 ∧
     create_pie_chart exList
       = .chart "Expense Breakdown by Category"
           [⟨"Food", 30, 1/2, 50⟩, ⟨"Transportation", 30, 1/2, 50⟩]) := by
  have hf : categoryTotal exList "Food" = 30 := by
    simp [categoryTotal, exList]
    norm_num
  have ht : categoryTotal exList "Transportation" = 30 := by
    simp [categoryTotal, exList]
  have htot : totalSum exList = 60 := by
    simp [totalSum, exList]
    norm_num
  refine ⟨chart_general, hf, ht, htot, ?_⟩
  have hk : categoryKeys exList = ["Food", "Transportation"] := by
    simp [categoryKeys, exList, List.dedup]
    decide
  have hct : category_totals exList = [("Food", 30), ("Transportation", 30)] := by
    simp [category_totals, hk, hf, ht]
  rw [create_pie_chart_ne_nil exList (by decide), hct]
  simp only [List.map_cons, List.map_nil, List.sum_cons, List.sum_nil]
  norm_num [fmt1f, round_eq]

/-- Witness for C6: the general half of the theorem applied to the spec's
concrete three-record example. -/
theorem chart_breakdown_by_category_witness :
    ∃ slices,
      create_pie_chart exList = .chart "Expense Breakdown by Category" slices ∧
      slices.map (·.label) = categoryKeys exList ∧
      (categoryKeys exList).Nodup ∧
      (∀ c : String, c ∈ categoryKeys exList ↔ ∃ r ∈ exList, r.category = c) ∧
      (slices.map (·.value)).sum = totalSum exList ∧
      (∀ sl ∈ slices, sl.value = categoryTotal exList sl.label ∧
        sl.share = sl.value / totalSum exList ∧
        sl.pct = fmt1f (100 * sl.share)) :=
  chart_breakdown_by_category.1 exList (by decide)

/-! ### Permutation invariance of the aggregation -/

theorem categoryTotal_perm {l l' : List Row} (h : l.Perm l') (c : String) :
    categoryTotal l c = categoryTotal l' c :=
  ((h.filter _).map _).sum_eq

theorem categoryKeys_perm {l l' : List Row} (h : l.Perm l') :
    categoryKeys l = categoryKeys l' := by
  have hd : ((l.map (·.category)).dedup).Perm ((l'.map (·.category)).dedup) :=
    (h.map _).dedup
  have hp : (categoryKeys l).Perm (categoryKeys l') := by
    unfold categoryKeys
    exact (List.perm_insertionSort _ _).trans
      (hd.trans (List.perm_insertionSort _ _).symm)
  exact List.eq_of_perm_of_sorted hp
    (List.sorted_insertionSort _ _) (List.sorted_insertionSort _ _)

/-- C10: reordering the input records changes neither any per-category
amount total nor the (ordered) category-to-total association the chart is
built from — the aggregation is permutation-invariant. -/
theorem aggregation_perm_invariant (l l' : List Row) (h : l.Perm l') :
    (∀ c : String, categoryTotal l c = categoryTotal l' c) ∧
    category_totals l = category_totals l' := by
  refine ⟨fun c => categoryTotal_perm h c, ?_⟩
  unfold category_totals
  rw [categoryKeys_perm h]
  exact List.map_congr_left (fun c _ => by rw [categoryTotal_perm h c])

/-- Witness for C10: swapping the first two records of the example list
leaves the "Food" total and the whole category-to-total list unchanged. -/
theorem aggregation_perm_invariant_witness :
    categoryTotal exList "Food" = categoryTotal exListSwapped "Food" ∧
    category_totals exList = category_totals exListSwapped := by
  have hperm : exList.Perm exListSwapped := by
    unfold exList exListSwapped
    exact List.Perm.swap _ _ _
  exact ⟨(aggregation_perm_invariant exList exListSwapped hperm).1 "Food",
         (aggregation_perm_invariant exList exListSwapped hperm).2⟩
